import Mathlib

/-!
A verification development for the anime list matcher.

The matching engine lives in `src/anilist.js`; an earlier variant of the
engine (with a token-overlap similarity combined with the edit-distance
similarity) appears in the unnamed source part `part_001`.  This file gives a
shallow embedding of both and proves properties of the current engine.

Modelling conventions:
* JavaScript strings are Lean `String`s (lists of characters).  The Unicode
  classes `\p{L}`/`\p{N}` of the normalizer's regex are modelled by
  `Char.isAlpha`/`Char.isDigit`, which agree with them on the ASCII range used
  throughout the proofs.
* JavaScript numbers are modelled by `ℚ`; every score produced by the engine
  is an exact rational, and JavaScript comparisons become `ℚ` comparisons.
* `fetch` and its response are modelled by an oracle value `FetchOutcome`
  describing the one observable interaction per call: a network-level
  rejection, or a response with an `ok` flag, a flag telling whether the body
  parses as JSON, and the optional payload found at the expected path.
  A thrown JavaScript error is an `Except.error`.
* `Array.prototype.sort` with the comparator `(a, b) => b.key - a.key` is a
  stable descending sort; it is modelled by a stable insertion sort.
-/

namespace AniList

/-! ## Text normalizer (src/anilist.js `normalize`) -/

/-- The character class kept by the regex `[^\p{L}\p{N}\s]` replacement:
letters, digits and whitespace survive, everything else is removed. -/
def jsKeep (c : Char) : Bool := c.isAlpha || c.isDigit || c.isWhitespace

/-- One pass of the regex replacement `\s+ → " "`: every maximal run of
whitespace becomes a single space.  The flag records whether the previous
character was whitespace. -/
def collapseAux : Bool → List Char → List Char
  | _, [] => []
  | prevWs, c :: cs =>
    if c.isWhitespace then
      if prevWs then collapseAux true cs else ' ' :: collapseAux true cs
    else c :: collapseAux false cs

/-- `String.prototype.trim`: drop whitespace from both ends. -/
def trimChars (l : List Char) : List Char :=
  ((l.dropWhile Char.isWhitespace).reverse.dropWhile Char.isWhitespace).reverse

/-- `rawInput.trim()` as a `String` operation. -/
def jsTrim (s : String) : String := ⟨trimChars s.data⟩

/-- `s.toLowerCase()` (character-wise, faithful on ASCII). -/
def jsToLower (s : String) : String := ⟨s.data.map Char.toLower⟩

/-- `normalize` from src/anilist.js: lower-case, strip every character that is
not a letter, digit or whitespace, collapse whitespace runs to one space, and
trim. -/
def normalize (s : String) : String :=
  ⟨trimChars (collapseAux false ((s.data.map Char.toLower).filter jsKeep))⟩

/-! ## Alias resolver (src/anilist.js `ALIAS_MAP`, `applyAlias`) -/

/-- The static alias table of src/anilist.js. -/
def ALIAS_MAP : List (String × String) :=
  [("aot", "attack on titan"),
   ("jjk", "jujutsu kaisen"),
   ("opm", "one punch man"),
   ("mha", "my hero academia"),
   ("fma", "fullmetal alchemist")]

/-- `applyAlias`: look the normalized input up in the alias table and fall
back to the original input. -/
def applyAlias (input : String) : String :=
  match ALIAS_MAP.lookup (normalize input) with
  | some v => v
  | none => input

/-! ## Levenshtein distance (src/anilist.js `levenshteinDistance`)

The source computes the Wagner–Fischer table row by row, keeping only the
previous row.  `nextRowAux` is the inner `for (j …)` loop producing the
entries `currRow[1..bLen]`; `levLoop` is the outer `for (i …)` loop. -/

/-- Inner loop of the row update.  `left` is `currRow[j-1]`, the head of the
fourth argument is `prevRow[j-1]`, and `pRest.headD 0` is `prevRow[j]`
(the row always extends far enough, so the default is never consulted). -/
def nextRowAux (ca : Char) : Nat → List Char → List Nat → List Nat
  | _, [], _ => []
  | _, _ :: _, [] => []
  | left, cb :: bs, pPrev :: pRest =>
    let pCur := pRest.headD 0
    let cost : Nat := if ca = cb then 0 else 1
    let cur := min (min (pCur + 1) (left + 1)) (pPrev + cost)
    cur :: nextRowAux ca cur bs pRest

/-- Outer loop: consume the characters of `a`, carrying the previous row and
the row index `i` (which is also `currRow[0]`). -/
def levLoop (b : List Char) : List Char → List Nat → Nat → List Nat
  | [], prev, _ => prev
  | ca :: as, prev, i => levLoop b as (i :: nextRowAux ca i b prev) (i + 1)

/-- `levenshteinDistance` from src/anilist.js, including the `a === b`
short-circuit and the two empty-string short-circuits; the result is
`prevRow[bLen]`, the last entry of the final row. -/
def levenshteinDistance (a b : String) : Nat :=
  if a = b then 0
  else if a.length = 0 then b.length
  else if b.length = 0 then a.length
  else (levLoop b.data a.data (List.range (b.data.length + 1)) 1).getLastD 0

/-! ## The classic Levenshtein recurrence

`levRecL` is the textbook Wagner–Fischer recurrence on last characters
(delete, insert, substitute, unit cost each).  It serves as the reference
definition of "classic Levenshtein edit distance" in the sense of spec §4.3,
and the row implementation above is proved to compute it. -/

/-- Classic Levenshtein edit distance, by the last-character recurrence. -/
def levRecL (a b : List Char) : Nat :=
  if ha : a = [] then b.length
  else if hb : b = [] then a.length
  else
    let cost : Nat := if a.getLast ha = b.getLast hb then 0 else 1
    min (min (levRecL a.dropLast b + 1) (levRecL a b.dropLast + 1))
      (levRecL a.dropLast b.dropLast + cost)
termination_by a.length + b.length
decreasing_by
  all_goals
    simp only [List.length_dropLast]
    have h1 := List.length_pos.mpr ha
    have h2 := List.length_pos.mpr hb
    omega

theorem levRecL_nil_left (b : List Char) : levRecL [] b = b.length := by
  rw [levRecL]; simp

theorem levRecL_nil_right (a : List Char) : levRecL a [] = a.length := by
  rw [levRecL]
  split
  · simp_all
  · simp

theorem levRecL_self (l : List Char) : levRecL l l = 0 := by
  induction l using List.reverseRecOn with
  | nil => simp [levRecL]
  | append_singleton as a ih =>
    rw [levRecL]
    simp [List.dropLast_concat, List.getLast_concat, ih]

theorem levRecL_concat_concat (p q : List Char) (ca cb : Char) :
    levRecL (p ++ [ca]) (q ++ [cb]) =
      min (min (levRecL p (q ++ [cb]) + 1) (levRecL (p ++ [ca]) q + 1))
        (levRecL p q + if ca = cb then 0 else 1) := by
  rw [levRecL]
  have ha : p ++ [ca] ≠ [] := by simp
  have hb : q ++ [cb] ≠ [] := by simp
  simp [ha, hb, List.dropLast_concat, List.getLast_concat]

theorem levRecL_le_max (a b : List Char) : levRecL a b ≤ max a.length b.length := by
  induction a, b using levRecL.induct with
  | case1 b => rw [levRecL_nil_left]; exact le_max_right _ _
  | case2 a ha => rw [levRecL_nil_right]; exact le_max_left _ _
  | case3 a b ha hb ih1 ih2 ih3 =>
    rw [levRecL]
    simp only [ha, hb, dif_neg, not_false_iff]
    refine le_trans (min_le_right _ _) ?_
    have hc : (if a.getLast ha = b.getLast hb then 0 else 1) ≤ 1 := by
      split <;> omega
    have h1 := List.length_pos.mpr ha
    have h2 := List.length_pos.mpr hb
    have hd : max a.dropLast.length b.dropLast.length + 1 = max a.length b.length := by
      simp only [List.length_dropLast]
      omega
    calc levRecL a.dropLast b.dropLast + (if a.getLast ha = b.getLast hb then 0 else 1)
        ≤ max a.dropLast.length b.dropLast.length + 1 := by
          have := ih3
          omega
      _ = max a.length b.length := hd

/-! ### The row implementation computes the recurrence -/

/-- `rowFrom p q bs` is the segment of the Wagner–Fischer row for the word
`p` against the prefixes `q`, `q ++ [b₀]`, `q ++ [b₀, b₁]`, … of `q ++ bs`. -/
def rowFrom (p q : List Char) : List Char → List Nat
  | [] => [levRecL p q]
  | cb :: bs => levRecL p q :: rowFrom p (q ++ [cb]) bs

theorem rowFrom_cons_head_tail (p q bs) :
    rowFrom p q bs = levRecL p q :: (rowFrom p q bs).tail := by
  cases bs <;> rfl

theorem nextRowAux_rowFrom (p : List Char) (ca : Char) :
    ∀ (bs q : List Char),
      nextRowAux ca (levRecL (p ++ [ca]) q) bs (rowFrom p q bs) =
        (rowFrom (p ++ [ca]) q bs).tail := by
  intro bs
  induction bs with
  | nil => intro q; rfl
  | cons cb bs ih =>
    intro q
    rw [show rowFrom p q (cb :: bs) = levRecL p q :: rowFrom p (q ++ [cb]) bs from rfl]
    rw [nextRowAux]
    have hhead : (rowFrom p (q ++ [cb]) bs).headD 0 = levRecL p (q ++ [cb]) := by
      rw [rowFrom_cons_head_tail]; rfl
    have hcur :
        min (min ((rowFrom p (q ++ [cb]) bs).headD 0 + 1) (levRecL (p ++ [ca]) q + 1))
            (levRecL p q + if ca = cb then 0 else 1) =
          levRecL (p ++ [ca]) (q ++ [cb]) := by
      rw [hhead, levRecL_concat_concat]
    simp only [hcur, ih (q ++ [cb])]
    rw [show rowFrom (p ++ [ca]) q (cb :: bs)
          = levRecL (p ++ [ca]) q :: rowFrom (p ++ [ca]) (q ++ [cb]) bs from rfl]
    rw [List.tail_cons]
    exact (rowFrom_cons_head_tail _ _ _).symm

theorem levLoop_rowFrom (b : List Char) :
    ∀ (as p : List Char),
      levLoop b as (rowFrom p [] b) (p.length + 1) = rowFrom (p ++ as) [] b := by
  intro as
  induction as with
  | nil => intro p; simp [levLoop]
  | cons ca as ih =>
    intro p
    rw [levLoop]
    have hlen : p.length + 1 = levRecL (p ++ [ca]) [] := by
      rw [levRecL_nil_right]; simp
    have hrow : (p.length + 1) :: nextRowAux ca (p.length + 1) b (rowFrom p [] b)
        = rowFrom (p ++ [ca]) [] b := by
      rw [hlen, nextRowAux_rowFrom p ca b []]
      exact (rowFrom_cons_head_tail _ _ _).symm
    rw [hrow]
    have : (p ++ [ca]).length + 1 = p.length + 1 + 1 := by simp
    rw [← this, ih (p ++ [ca])]
    simp

theorem rowFrom_nil_word (bs : List Char) :
    ∀ q : List Char,
      rowFrom [] q bs = (List.range (bs.length + 1)).map (fun j => q.length + j) := by
  induction bs with
  | nil =>
    intro q
    simp [rowFrom, levRecL_nil_left, List.range_succ, List.range_zero]
  | cons cb bs ih =>
    intro q
    rw [show rowFrom [] q (cb :: bs) = levRecL [] q :: rowFrom [] (q ++ [cb]) bs from rfl]
    rw [levRecL_nil_left, ih (q ++ [cb])]
    rw [show (cb :: bs).length + 1 = (bs.length + 1) + 1 from rfl]
    rw [List.range_succ_eq_map (bs.length + 1)]
    simp only [List.map_cons, List.map_map, Nat.add_zero]
    congr 1
    apply List.map_congr_left
    intro j _
    simp only [Function.comp_apply, List.length_append, List.length_cons, List.length_nil]
    omega

theorem rowFrom_init (b : List Char) :
    List.range (b.length + 1) = rowFrom [] [] b := by
  rw [rowFrom_nil_word b []]
  simp

theorem rowFrom_getLastD (p : List Char) :
    ∀ (bs q : List Char) (d : Nat),
      (rowFrom p q bs).getLastD d = levRecL p (q ++ bs) := by
  intro bs
  induction bs with
  | nil => intro q d; simp [rowFrom]
  | cons cb bs ih =>
    intro q d
    rw [show rowFrom p q (cb :: bs) = levRecL p q :: rowFrom p (q ++ [cb]) bs from rfl]
    rw [List.getLastD_cons, ih (q ++ [cb])]
    simp

/-- The row-by-row loop of src/anilist.js computes the classic recurrence. -/
theorem levenshteinDistance_eq_levRecL (a b : String) :
    levenshteinDistance a b = levRecL a.data b.data := by
  unfold levenshteinDistance
  split
  · next heq => rw [heq, levRecL_self]
  · split
    · next hne hlen =>
      have : a.data = [] := List.length_eq_zero.mp hlen
      rw [this, levRecL_nil_left]
      rfl
    · split
      · next hne hla hlb =>
        have : b.data = [] := List.length_eq_zero.mp hlb
        rw [this, levRecL_nil_right]
        rfl
      · next hne hla hlb =>
        rw [rowFrom_init b.data]
        rw [show (1 : Nat) = [].length + 1 from rfl]
        rw [levLoop_rowFrom b.data a.data []]
        simp only [List.nil_append]
        rw [rowFrom_getLastD a.data b.data []]
        simp

/-! ## Similarity scorer (src/anilist.js `similarity`) -/

/-- `similarity` from src/anilist.js: normalized Levenshtein similarity. -/
def similarity (a b : String) : ℚ :=
  let na := normalize a
  let nb := normalize b
  if na.length = 0 ∧ nb.length = 0 then 1
  else if na.length = 0 ∨ nb.length = 0 then 0
  else
    let distance := levenshteinDistance na nb
    let maxLen := max na.length nb.length
    1 - (distance : ℚ) / (maxLen : ℚ)

theorem similarity_nonneg (a b : String) : 0 ≤ similarity a b := by
  simp only [similarity]
  split
  · norm_num
  · split
    · exact le_refl 0
    · next h1 h2 =>
      push_neg at h2
      have hd := levRecL_le_max (normalize a).data (normalize b).data
      rw [← levenshteinDistance_eq_levRecL] at hd
      have hmaxpos : 0 < max (normalize a).length (normalize b).length := by
        have : 0 < (normalize a).length := Nat.pos_of_ne_zero h2.1
        omega
      have hmax : ((levenshteinDistance (normalize a) (normalize b) : ℚ))
          ≤ ((max (normalize a).length (normalize b).length : ℕ) : ℚ) := by
        exact_mod_cast hd
      have hpos : (0 : ℚ) < ((max (normalize a).length (normalize b).length : ℕ) : ℚ) := by
        exact_mod_cast hmaxpos
      have := div_le_one_of_le₀ hmax (le_of_lt hpos)
      linarith

/-! ## The measures of the part_001 variant and of spec §4.3

The unnamed source part `part_001` contains an engine variant whose scoring
uses `combinedSimilarity`, the maximum of a token-overlap (Jaccard) measure
and a normalized Levenshtein measure.  These definitions embed that variant
for comparison with the current engine. -/

/-- JavaScript `split(' ')` on character lists; `cur` is the (reversed)
current chunk. -/
def splitOnSpaceAux (cur : List Char) : List Char → List (List Char)
  | [] => [cur.reverse]
  | c :: cs =>
    if c = ' ' then cur.reverse :: splitOnSpaceAux [] cs
    else splitOnSpaceAux (c :: cur) cs

/-- `tokenSet` of part_001: `new Set(normalize(str).split(' ').filter(Boolean))`.
The JavaScript `Set` keeps first occurrences; duplicates are erased. -/
def tokenSet (str : String) : List (List Char) :=
  ((splitOnSpaceAux [] (normalize str).data).filter (fun t => t ≠ [])).eraseDups

/-- The Jaccard token-overlap measure of part_001 (named `similarity` there):
`|intersection| / |union|` of the two token sets, `0` if either is empty. -/
def tokenSimilarity (a b : String) : ℚ :=
  let sa := tokenSet a
  let sb := tokenSet b
  if sa.length = 0 ∨ sb.length = 0 then 0
  else
    let inter := (sa.filter (fun t => sb.contains t)).length
    let union := sa.length + sb.length - inter
    (inter : ℚ) / (union : ℚ)

/-- `levenshteinSimilarity` of part_001.  That variant fills in the full
Wagner–Fischer matrix `dp[i][j]` with the classic recurrence and reads off
`dp[aLen][bLen]`; the matrix entry is exactly `levRecL` of the two words
(the row-by-row form of the same table is proved equal to `levRecL` in
`levenshteinDistance_eq_levRecL`).  Note this variant returns `0` when both
normalized strings are empty, unlike `similarity`. -/
def levenshteinSimilarity (a b : String) : ℚ :=
  let aa := normalize a
  let bb := normalize b
  if aa.length = 0 ∨ bb.length = 0 then 0
  else 1 - (levRecL aa.data bb.data : ℚ) / ((max aa.length bb.length : ℕ) : ℚ)

/-- `combinedSimilarity` of part_001: the maximum of the token-overlap and
edit-distance measures. -/
def combinedSimilarity (a b : String) : ℚ :=
  max (tokenSimilarity a b) (levenshteinSimilarity a b)

/-- The edit-distance measure in the words of spec §4.3, restated
independently of the implementation: normalize both strings, take the classic
Levenshtein edit distance between them, and convert it to a similarity by
`1 − distance / max(len, len)`; if either normalized string is empty, the
result is `1` when both are empty and `0` otherwise. -/
def editMeasureSpec (a b : String) : ℚ :=
  let na := normalize a
  let nb := normalize b
  if na = "" ∧ nb = "" then 1
  else if na = "" ∨ nb = "" then 0
  else 1 - (levRecL na.data nb.data : ℚ) / ((max na.length nb.length : ℕ) : ℚ)

/-! ## Data model of the catalog and of scoring -/

/-- The title variants of one catalog record (AniList `media.title`). -/
structure MediaTitle where
  english : Option String
  romaji : Option String
  native : Option String
deriving DecidableEq

/-- One catalog record as consumed by the engine. -/
structure Media where
  id : Nat
  title : MediaTitle
  coverImage : Option String
  seasonYear : Option Int
deriving DecidableEq

/-- `[c.title.english, c.title.romaji, c.title.native].filter(Boolean)`:
missing titles and empty-string titles are falsy and dropped. -/
def presentTitles (t : MediaTitle) : List String :=
  ([t.english, t.romaji, t.native].filterMap id).filter (fun s => s ≠ "")

/-- The score of one candidate: `Math.max(...titles.map(t => similarity(term, t)))`.
`Math.max` folds its arguments from `-Infinity`, so a candidate whose
filtered title list is empty scores `-Infinity`.  Scores therefore live in
`WithBot ℚ`, with `⊥` standing for `-Infinity` (a score is never `NaN` or
`+Infinity`, since every `similarity` value is a finite rational). -/
def candidateScore (searchTerm : String) (c : Media) : WithBot ℚ :=
  ((presentTitles c.title).map
    (fun t => ((similarity searchTerm t : ℚ) : WithBot ℚ))).foldl max ⊥

/-- A candidate paired with its score (`⊥` is `-Infinity`). -/
structure ScoredEntry where
  anime : Media
  score : WithBot ℚ
deriving DecidableEq

/-- The value of the JavaScript number `best.score - second.score`: it can be
finite, `+Infinity` (finite best over a `-Infinity` runner-up), `-Infinity`,
or `NaN` (`-Infinity - -Infinity`). -/
inductive JsNum where
  | nan : JsNum
  | negInf : JsNum
  | posInf : JsNum
  | fin : ℚ → JsNum
deriving DecidableEq

/-- JavaScript subtraction of two scores (`⊥` is `-Infinity`). -/
def jsSub (a b : WithBot ℚ) : JsNum :=
  match a, b with
  | some a, some b => .fin (a - b)
  | some _, none => .posInf
  | none, some _ => .negInf
  | none, none => .nan

/-- The JavaScript comparison `m >= q` against a finite `q`: false on `NaN`
and `-Infinity`, true on `+Infinity`. -/
def JsNum.geQ : JsNum → ℚ → Prop
  | .nan, _ => False
  | .negInf, _ => False
  | .posInf, _ => True
  | .fin r, q => q ≤ r

instance (m : JsNum) (q : ℚ) : Decidable (m.geQ q) :=
  match m with
  | .nan => isFalse id
  | .negInf => isFalse id
  | .posInf => isTrue trivial
  | .fin r => inferInstanceAs (Decidable (q ≤ r))

/-- The value produced by `scoreCandidates`: the sorted scored list and the
derived `best`, `second` and `margin`. -/
structure ScoredSet where
  scores : List ScoredEntry
  best : Option ScoredEntry
  second : Option ScoredEntry
  margin : JsNum
deriving DecidableEq

/-- Stable insertion (descending by `key`) into an already-sorted list:
earlier elements win ties, matching a stable JavaScript
`sort((a, b) => b.key - a.key)`. -/
def insertDescBy {α β : Type} [LinearOrder β] (key : α → β) (a : α) : List α → List α
  | [] => [a]
  | b :: bs => if key a < key b then b :: insertDescBy key a bs else a :: b :: bs

/-- Stable descending sort by `key`. -/
def sortDescBy {α β : Type} [LinearOrder β] (key : α → β) (l : List α) : List α :=
  l.foldr (insertDescBy key) []

/-- `scored.best?.score ?? 0` (and for `formatMatch`, `scored.best.score`,
whose `best` is always present when the list is nonempty).  A present best
may carry `⊥` (`-Infinity`); an absent best defaults to the finite `0`. -/
def bestScoreOf (s : ScoredSet) : WithBot ℚ :=
  match s.best with
  | some b => b.score
  | none => 0

/-- `scoreCandidates` from src/anilist.js.  The sort comparator
`(a, b) => b.score - a.score` yields `NaN` on two `-Infinity` scores, which
the JavaScript sort treats as `+0` (a tie); over scores in `ℚ ∪ {-Infinity}`
this is exactly the stable descending sort by the `WithBot ℚ` order. -/
def scoreCandidates (searchTerm : String) (candidates : List Media) : ScoredSet :=
  if candidates = [] then ⟨[], none, none, .fin 0⟩
  else
    let scores := candidates.map (fun c => ScoredEntry.mk c (candidateScore searchTerm c))
    let sorted := sortDescBy (fun s => s.score) scores
    let best := sorted.head?
    let second := sorted[1]?
    let margin : JsNum :=
      match second with
      | some s => jsSub (match best with | some b => b.score | none => 0) s.score
      | none => .fin 1
    ⟨sorted, best, second, margin⟩

/-- The classification tag of a match result. -/
inductive MatchType where
  | noMatch : MatchType
  | auto : MatchType
  | review : MatchType
deriving DecidableEq

/-- The externally visible result for one input line. -/
structure MatchResult where
  raw : String
  type : MatchType
  best : Option ScoredEntry
  candidates : List ScoredEntry
deriving DecidableEq

def AUTO_THRESHOLD : ℚ := 0.7
def MARGIN_MIN : ℚ := 0.2
def LOW_CONFIDENCE_THRESHOLD : ℚ := 0.55

/-- `formatMatch` from src/anilist.js.  Both comparisons are the JavaScript
`>=`: on the score side a `-Infinity` best fails the threshold, and on the
margin side `NaN` and `-Infinity` fail while `+Infinity` passes. -/
def formatMatch (raw : String) (scored : ScoredSet) : MatchResult :=
  if scored.scores = [] then ⟨raw, .noMatch, none, []⟩
  else if (AUTO_THRESHOLD : WithBot ℚ) ≤ bestScoreOf scored ∧ scored.margin.geQ MARGIN_MIN then
    ⟨raw, .auto, scored.best, scored.scores⟩
  else ⟨raw, .review, scored.best, scored.scores⟩

/-! ## External calls

`FetchOutcome` is the oracle for one `fetch` call: the call either rejects at
the network level, or yields a response with an `ok` flag, a flag saying
whether the body parses as JSON, and the optional payload found at the
expected path of the parsed body (`none` models missing fields). -/

inductive FetchOutcome (α : Type) where
  | netError : FetchOutcome α
  | response (ok : Bool) (jsonValid : Bool) (payload : Option α) : FetchOutcome α
deriving DecidableEq

/-- A thrown JavaScript error, as observed through `Except`. -/
inductive JsError where
  | transport : JsError
  | parse : JsError
deriving DecidableEq

/-- `searchAnimeOnAniList` from src/anilist.js.  A rejected `fetch` and a
body that fails `res.json()` are uncaught and propagate; a non-`ok` status is
logged and turned into an empty candidate list; missing fields at
`json.data?.Page?.media` fall back to `[]`. -/
def searchAnimeOnAniList (catalog : String → FetchOutcome (List Media))
    (search : String) : Except JsError (List Media) :=
  match catalog search with
  | .netError => .error .transport
  | .response ok jsonValid payload =>
    if ok = false then .ok []
    else if jsonValid = false then .error .parse
    else .ok (payload.getD [])

/-- One result item of a Google CSE response. -/
structure GoogleItem where
  title : Option String
  link : Option String
deriving DecidableEq

/-- The refinement environment: the two configuration variables (absent or
empty strings are falsy) and the oracle for the one CSE `fetch` call. -/
structure GoogleEnv where
  apiKey : Option String
  cx : Option String
  fetch : FetchOutcome (List GoogleItem)

/-- `!GOOGLE_CSE_API_KEY || !GOOGLE_CSE_CX`, negated. -/
def googleConfigured (g : GoogleEnv) : Prop :=
  g.apiKey.getD "" ≠ "" ∧ g.cx.getD "" ≠ ""

instance (g : GoogleEnv) : Decidable (googleConfigured g) :=
  inferInstanceAs (Decidable (_ ∧ _))

/-- Case-insensitive "the suffix starts with this keyword". -/
def ciStartsWith (kw l : List Char) : Bool :=
  (kw.map Char.toLower).isPrefixOf (l.map Char.toLower)

/-- Does the suffix match `\s*[sep]\s*kw` (case-insensitively on `kw`)? -/
def sepKwAt (seps : List Char) (kw : List Char) (l : List Char) : Bool :=
  match l.dropWhile Char.isWhitespace with
  | [] => false
  | c :: rest => seps.contains c && ciStartsWith kw (rest.dropWhile Char.isWhitespace)

/-- Does the suffix match `\s*kw` (case-insensitively)? -/
def wsKwAt (kw : List Char) (l : List Char) : Bool :=
  ciStartsWith kw (l.dropWhile Char.isWhitespace)

/-- `replace(re, '')` for an `…$`-anchored pattern: delete from the leftmost
position whose suffix matches the pattern's head to the end of the string. -/
def stripFromFirst (p : List Char → Bool) : List Char → List Char
  | [] => []
  | c :: cs => if p (c :: cs) then [] else c :: stripFromFirst p cs

/-- `pickBestTitle` from src/anilist.js: strip the known suffix boilerplate
(`- AniList…`, `- MyAnimeList…`, `| Official Site…`, `(Anime)…`, `(TV)…`,
each case-insensitive) and trim. -/
def pickBestTitle (title : Option String) : String :=
  let t := title.getD ""
  if t = "" then ""
  else
    let s1 := stripFromFirst (sepKwAt ['-', '|'] "anilist".data) t.data
    let s2 := stripFromFirst (sepKwAt ['-', '|'] "myanimelist".data) s1
    let s3 := stripFromFirst (sepKwAt ['|'] "official site".data) s2
    let s4 := stripFromFirst (wsKwAt "(anime)".data) s3
    let s5 := stripFromFirst (wsKwAt "(tv)".data) s4
    ⟨trimChars s5⟩

/-- Is `needle` a contiguous part of `hay`? (`String.prototype.includes`). -/
def containsSeq (needle : List Char) : List Char → Bool
  | [] => needle.isPrefixOf []
  | c :: cs => needle.isPrefixOf (c :: cs) || containsSeq needle cs

/-- The source-priority of one item: an `anilist.co` link ranks 3, a
`myanimelist.net` link ranks 2, anything else (including a missing link)
ranks 1. -/
def itemPriority (it : GoogleItem) : Nat :=
  match it.link with
  | none => 1
  | some l =>
    if containsSeq "anilist.co".data l.data then 3
    else if containsSeq "myanimelist.net".data l.data then 2
    else 1

/-- The `for (const item of sorted)` loop: the first nonempty cleaned title. -/
def firstUsableTitle : List GoogleItem → Option String
  | [] => none
  | it :: rest =>
    let t := pickBestTitle it.title
    if t = "" then firstUsableTitle rest else some t

/-- The body of the `try` block of `searchGoogleForAnimePhrase`: a rejected
`fetch` or a body that fails `res.json()` throws (escapes the block); a
non-`ok` status, an empty item list and a fruitless loop all yield `null`. -/
def searchGoogleTry (g : GoogleEnv) : Except JsError (Option String) :=
  match g.fetch with
  | .netError => .error .transport
  | .response ok jsonValid payload =>
    if ok = false then .ok none
    else if jsonValid = false then .error .parse
    else
      let items := payload.getD []
      if items = [] then .ok none
      else .ok (firstUsableTitle (sortDescBy itemPriority items))

/-- `searchGoogleForAnimePhrase` from src/anilist.js: skip when unconfigured;
run the `try` block; the `catch` absorbs anything thrown and the function
falls through to `return null`.  The searched phrase does not influence the
modelled outcome (the oracle fixes the one response), but is kept for shape. -/
def searchGoogleForAnimePhrase (g : GoogleEnv) (_phrase : String) :
    Except JsError (Option String) :=
  if ¬googleConfigured g then .ok none
  else
    match searchGoogleTry g with
    | .error _ => .ok none
    | .ok v => .ok v

/-! ## Two-pass orchestration (src/anilist.js `performAniListMatch`,
`matchAnime`) -/

/-- `performAniListMatch`: query the catalog, score, format. -/
def performAniListMatch (catalog : String → FetchOutcome (List Media))
    (raw searchTerm : String) : Except JsError (MatchResult × ScoredSet) :=
  match searchAnimeOnAniList catalog searchTerm with
  | .error e => .error e
  | .ok candidates =>
    let scored := scoreCandidates searchTerm candidates
    .ok (formatMatch raw scored, scored)

/-- The whole environment one `matchAnime` call can observe. -/
structure Env where
  catalog : String → FetchOutcome (List Media)
  google : GoogleEnv

/-- `!initial.scored.scores.length || (initial.scored.best?.score ?? 0) < LOW_CONFIDENCE_THRESHOLD`. -/
def hasLowConfidence (scored : ScoredSet) : Prop :=
  scored.scores = [] ∨ bestScoreOf scored < (LOW_CONFIDENCE_THRESHOLD : WithBot ℚ)

instance (scored : ScoredSet) : Decidable (hasLowConfidence scored) :=
  inferInstanceAs (Decidable (_ ∨ _))

/-- Bookkeeping attached to a result purely for specification purposes: the
search terms sent to the catalog, in order, and whether the refinement client
was invoked.  It does not influence any computed value. -/
structure Trace where
  catalogCalls : List String
  refineInvoked : Bool
deriving DecidableEq

/-- `matchAnime` from src/anilist.js.  `.ok none` is the blank-line result.
The branch on the refinement call's error is present for shape only; the
refinement client never throws (`searchGoogleForAnimePhrase_never_throws`). -/
def matchAnime (env : Env) (rawInput : String) :
    Except JsError (Option (MatchResult × Trace)) :=
  let trimmed := jsTrim rawInput
  if trimmed = "" then .ok none
  else
    let aliasedInput := applyAlias trimmed
    match performAniListMatch env.catalog trimmed aliasedInput with
    | .error e => .error e
    | .ok initial =>
      if ¬hasLowConfidence initial.2 then
        .ok (some (initial.1, ⟨[aliasedInput], false⟩))
      else
        match searchGoogleForAnimePhrase env.google aliasedInput with
        | .error e => .error e
        | .ok none => .ok (some (initial.1, ⟨[aliasedInput], true⟩))
        | .ok (some refined) =>
          if jsToLower refined = jsToLower aliasedInput then
            .ok (some (initial.1, ⟨[aliasedInput], true⟩))
          else
            match performAniListMatch env.catalog trimmed refined with
            | .error e => .error e
            | .ok refinedAttempt =>
              if bestScoreOf initial.2 < bestScoreOf refinedAttempt.2 then
                .ok (some (refinedAttempt.1, ⟨[aliasedInput, refined], true⟩))
              else
                .ok (some (initial.1, ⟨[aliasedInput, refined], true⟩))

/-! ## Basic lemmas about the scorer and the pipeline -/

theorem length_insertDescBy {α β : Type} [LinearOrder β] (key : α → β) (a : α)
    (l : List α) : (insertDescBy key a l).length = l.length + 1 := by
  induction l with
  | nil => rfl
  | cons b bs ih =>
    rw [insertDescBy]
    split
    · simp [ih]
    · simp

theorem length_sortDescBy {α β : Type} [LinearOrder β] (key : α → β)
    (l : List α) : (sortDescBy key l).length = l.length := by
  induction l with
  | nil => rfl
  | cons a asr ih =>
    show (insertDescBy key a (sortDescBy key asr)).length = asr.length + 1
    rw [length_insertDescBy, ih]

theorem mem_insertDescBy {α β : Type} [LinearOrder β] (key : α → β) (a x : α)
    (l : List α) : x ∈ insertDescBy key a l ↔ x = a ∨ x ∈ l := by
  induction l with
  | nil => simp [insertDescBy]
  | cons b bs ih =>
    rw [insertDescBy]
    split
    · simp only [List.mem_cons, ih]
      tauto
    · simp only [List.mem_cons]

theorem mem_sortDescBy {α β : Type} [LinearOrder β] (key : α → β) (x : α)
    (l : List α) : x ∈ sortDescBy key l ↔ x ∈ l := by
  induction l with
  | nil => exact Iff.rfl
  | cons a asr ih =>
    show x ∈ insertDescBy key a (sortDescBy key asr) ↔ _
    rw [mem_insertDescBy]
    simp only [List.mem_cons, ih]

/-- `Math.max(-Infinity, x) = x`: the fold identity is absorbed. -/
theorem withBot_max_bot (x : WithBot ℚ) : max ⊥ x = x := max_eq_right bot_le

theorem scoreCandidates_nil (searchTerm : String) :
    scoreCandidates searchTerm [] = ⟨[], none, none, .fin 0⟩ := rfl

theorem scoreCandidates_scores_nil_iff (searchTerm : String) (cs : List Media) :
    (scoreCandidates searchTerm cs).scores = [] ↔ cs = [] := by
  unfold scoreCandidates
  split
  · next h => simp [h]
  · next h =>
    simp only
    constructor
    · intro hnil
      have := congrArg List.length hnil
      rw [length_sortDescBy, List.length_map] at this
      exact List.length_eq_zero.mp this
    · intro hcs; exact absurd hcs h

theorem formatMatch_raw (raw : String) (scored : ScoredSet) :
    (formatMatch raw scored).raw = raw := by
  unfold formatMatch
  split
  · rfl
  · split <;> rfl

theorem formatMatch_noMatch_iff (raw : String) (scored : ScoredSet) :
    (formatMatch raw scored).type = .noMatch ↔ scored.scores = [] := by
  unfold formatMatch
  split
  · next h => simpa using h
  · next h =>
    split <;> simpa using h

theorem performAniListMatch_ok (catalog : String → FetchOutcome (List Media))
    (raw searchTerm : String) (p : MatchResult × ScoredSet)
    (h : performAniListMatch catalog raw searchTerm = .ok p) :
    ∃ cs, searchAnimeOnAniList catalog searchTerm = .ok cs ∧
      p = (formatMatch raw (scoreCandidates searchTerm cs), scoreCandidates searchTerm cs) := by
  unfold performAniListMatch at h
  split at h
  · exact absurd h (by simp)
  · next cs heq =>
    refine ⟨cs, heq, ?_⟩
    simpa using h.symm

theorem performAniListMatch_raw (catalog : String → FetchOutcome (List Media))
    (raw searchTerm : String) (p : MatchResult × ScoredSet)
    (h : performAniListMatch catalog raw searchTerm = .ok p) : p.1.raw = raw := by
  obtain ⟨cs, _, rfl⟩ := performAniListMatch_ok catalog raw searchTerm p h
  exact formatMatch_raw _ _

theorem performAniListMatch_scored (catalog : String → FetchOutcome (List Media))
    (raw searchTerm : String) (p : MatchResult × ScoredSet)
    (h : performAniListMatch catalog raw searchTerm = .ok p) :
    ∃ cs, searchAnimeOnAniList catalog searchTerm = .ok cs ∧
      p.2 = scoreCandidates searchTerm cs := by
  obtain ⟨cs, hcs, rfl⟩ := performAniListMatch_ok catalog raw searchTerm p h
  exact ⟨cs, hcs, rfl⟩

theorem searchGoogleForAnimePhrase_never_throws (g : GoogleEnv) (phrase : String) :
    ∃ v, searchGoogleForAnimePhrase g phrase = .ok v := by
  unfold searchGoogleForAnimePhrase
  split
  · exact ⟨none, rfl⟩
  · split
    · exact ⟨none, rfl⟩
    · next v _ => exact ⟨v, rfl⟩

/-- A convenience bridge: `s.length = 0` exactly when `s` is the empty
string. -/
theorem string_length_eq_zero_iff (s : String) : s.length = 0 ↔ s = "" := by
  constructor
  · intro h
    cases s with
    | mk l =>
      have : l = [] := List.length_eq_zero.mp h
      rw [this]
  · intro h; rw [h]; decide

/-! ## The claims -/

/-- C1 (counterexample).  The claim says the score used on catalog candidates
is the maximum of the token-overlap measure and the normalized Levenshtein
measure.  On the concrete search term `"ab cd"` and a candidate titled
`"cd ab"`, the engine's score (`similarity`, the Levenshtein measure alone,
`1/5` here) differs from that maximum (`combinedSimilarity`, `1` here, since
the token sets coincide). -/
theorem C1_counterexample :
    candidateScore "ab cd" ⟨1, ⟨some "cd ab", none, none⟩, none, none⟩ ≠
      combinedSimilarity "ab cd" "cd ab" := by
  have hcand : candidateScore "ab cd" ⟨1, ⟨some "cd ab", none, none⟩, none, none⟩
      = similarity "ab cd" "cd ab" := rfl
  have hsim : similarity "ab cd" "cd ab" = 1 / 5 := by
    simp only [similarity]
    rw [if_neg (by decide), if_neg (by decide)]
    rw [show levenshteinDistance (normalize "ab cd") (normalize "cd ab") = 4 from by decide]
    rw [show max (normalize "ab cd").length (normalize "cd ab").length = 5 from by decide]
    norm_num
  have htok : tokenSimilarity "ab cd" "cd ab" = 1 := by
    simp only [tokenSimilarity]
    rw [if_neg (by decide)]
    rw [show ((tokenSet "ab cd").filter fun t => (tokenSet "cd ab").contains t).length = 2
      from by decide]
    rw [show (tokenSet "ab cd").length = 2 from by decide]
    rw [show (tokenSet "cd ab").length = 2 from by decide]
    norm_num
  have hlev : levenshteinSimilarity "ab cd" "cd ab" = 1 / 5 := by
    simp only [levenshteinSimilarity]
    rw [if_neg (by decide)]
    rw [show levRecL (normalize "ab cd").data (normalize "cd ab").data = 4 from by
      rw [← levenshteinDistance_eq_levRecL]; decide]
    rw [show max (normalize "ab cd").length (normalize "cd ab").length = 5 from by decide]
    norm_num
  have hcomb : combinedSimilarity "ab cd" "cd ab" = 1 := by
    unfold combinedSimilarity
    rw [htok, hlev]
    norm_num
  rw [hcand, hsim, hcomb]
  norm_num

/-- C1 (amended).  In the current engine the similarity score used on catalog
candidates is the edit-distance measure alone: for every pair of strings,
`similarity` equals the spec §4.3 edit-distance measure (classic Levenshtein
on the normalized strings, converted by `1 − d / maxLen`, with the
empty-string conventions).  The token-overlap measure is not consulted; the
max-of-both combination exists only in the part_001 variant. -/
theorem similarity_is_edit_measure_only (a b : String) :
    similarity a b = editMeasureSpec a b := by
  simp only [similarity, editMeasureSpec, string_length_eq_zero_iff,
    levenshteinDistance_eq_levRecL]

/-- C2 (counterexample).  The claim says `similarity s ""` is `0` unless `s`
is itself empty.  The nonempty string `"!!!"` normalizes to the empty string,
so `similarity "!!!" "" = 1`. -/
theorem C2_counterexample :
    similarity "!!!" "" = 1 ∧ ("!!!" : String) ≠ "" := ⟨rfl, by decide⟩

/-- C2 (amended).  `similarity s s = 1` for every string (the identical-
normalized-strings case is short-circuited by the `a === b` check inside
`levenshteinDistance`, which runs after normalization, not before), and
`similarity s "" = 0` unless `normalize s` is empty, in which case it is
`1`. -/
theorem similarity_self_and_empty (s : String) :
    similarity s s = 1 ∧ (normalize s = "" → similarity s "" = 1) ∧
      (normalize s ≠ "" → similarity s "" = 0) := by
  have hnil : normalize "" = "" := rfl
  refine ⟨?_, ?_, ?_⟩
  · simp only [similarity]
    by_cases h : (normalize s).length = 0
    · rw [if_pos ⟨h, h⟩]
    · rw [if_neg (by tauto), if_neg (by tauto)]
      rw [show levenshteinDistance (normalize s) (normalize s) = 0 from by
        unfold levenshteinDistance; rw [if_pos rfl]]
      norm_num
  · intro h
    simp only [similarity]
    rw [if_pos ⟨(string_length_eq_zero_iff _).mpr h, (string_length_eq_zero_iff _).mpr hnil⟩]
  · intro h
    simp only [similarity]
    have h1 : (normalize s).length ≠ 0 := fun hc => h ((string_length_eq_zero_iff _).mp hc)
    rw [if_neg (by tauto), if_pos (Or.inr ((string_length_eq_zero_iff _).mpr hnil))]

/-- C2 (witness): the amended theorem at `s = "naruto"`, which normalizes to
a nonempty string, so the empty-side score is `0`. -/
theorem similarity_self_and_empty_witness :
    similarity "naruto" "naruto" = 1 ∧ similarity "naruto" "" = 0 :=
  ⟨(similarity_self_and_empty "naruto").1,
   (similarity_self_and_empty "naruto").2.2 (by decide)⟩

/-- C3.  For every scored candidate list, the classification of a single
attempt is: `no-match` when the candidate list is empty; otherwise `auto`
exactly when the best score reaches `0.70` and the margin reaches `0.20`,
and `review` otherwise — both threshold checks being the JavaScript `>=`
(a `-Infinity` best fails its threshold; a `NaN` margin fails and a
`+Infinity` margin passes).  In particular `auto` requires both thresholds. -/
theorem formatMatch_classification (raw searchTerm : String) (cs : List Media) :
    (formatMatch raw (scoreCandidates searchTerm cs)).type =
      if cs = [] then .noMatch
      else if ((0.7 : ℚ) : WithBot ℚ) ≤ bestScoreOf (scoreCandidates searchTerm cs) ∧
          (scoreCandidates searchTerm cs).margin.geQ (0.2 : ℚ) then .auto
      else .review := by
  unfold formatMatch AUTO_THRESHOLD MARGIN_MIN
  by_cases h : cs = []
  · rw [if_pos ((scoreCandidates_scores_nil_iff _ _).mpr h), if_pos h]
  · rw [if_neg (fun hc => h ((scoreCandidates_scores_nil_iff _ _).mp hc)), if_neg h]
    split <;> rfl

/-- C5 (counterexample).  The claim says a non-success HTTP status from the
catalog propagates as a failure out of `matchAnime` and is not converted into
an empty candidate list with a normal result.  With a catalog that answers
with a non-`ok` status, `searchAnimeOnAniList` returns a normal empty list and
`matchAnime` returns a normal `no-match` result, not a failure. -/
theorem C5_counterexample :
    searchAnimeOnAniList (fun _ => .response false true (some [])) "x" = .ok [] ∧
    matchAnime ⟨fun _ => .response false true (some []), ⟨none, none, .netError⟩⟩ "x"
      = .ok (some (⟨"x", .noMatch, none, []⟩, ⟨["x"], true⟩)) :=
  ⟨rfl, rfl⟩

/-- C5 (amended).  A rejected catalog `fetch` and a catalog body that fails
JSON parsing propagate as failures out of `matchAnime`; a non-success HTTP
status, however, is converted into an empty candidate list (and a normal
result). -/
theorem catalog_error_propagation (env : Env) (rawInput : String)
    (hne : jsTrim rawInput ≠ "") :
    (env.catalog (applyAlias (jsTrim rawInput)) = .netError →
       matchAnime env rawInput = .error .transport) ∧
    (∀ pl, env.catalog (applyAlias (jsTrim rawInput)) = .response true false pl →
       matchAnime env rawInput = .error .parse) ∧
    (∀ jv pl, env.catalog (applyAlias (jsTrim rawInput)) = .response false jv pl →
       searchAnimeOnAniList env.catalog (applyAlias (jsTrim rawInput)) = .ok []) := by
  refine ⟨?_, ?_, ?_⟩
  · intro hcat
    have hperf : performAniListMatch env.catalog (jsTrim rawInput)
        (applyAlias (jsTrim rawInput)) = .error .transport := by
      unfold performAniListMatch searchAnimeOnAniList
      rw [hcat]
    simp only [matchAnime]
    rw [if_neg hne, hperf]
  · intro pl hcat
    have hperf : performAniListMatch env.catalog (jsTrim rawInput)
        (applyAlias (jsTrim rawInput)) = .error .parse := by
      unfold performAniListMatch searchAnimeOnAniList
      rw [hcat]
      rfl
    simp only [matchAnime]
    rw [if_neg hne, hperf]
  · intro jv pl hcat
    unfold searchAnimeOnAniList
    rw [hcat]
    rfl

/-- C5 (witness): the amended theorem on a catalog whose `fetch` rejects; the
failure propagates out of `matchAnime`. -/
theorem catalog_error_propagation_witness :
    jsTrim "x" ≠ "" ∧
    matchAnime ⟨fun _ => .netError, ⟨none, none, .netError⟩⟩ "x" = .error .transport :=
  ⟨by decide,
   (catalog_error_propagation ⟨fun _ => .netError, ⟨none, none, .netError⟩⟩ "x"
     (by decide)).1 rfl⟩

/-- C7.  When the initial attempt has at least one candidate and its best
score reaches the low-confidence threshold `0.55`, `matchAnime` returns the
initial attempt's result as-is, and the refinement client is never invoked
(the trace records no refinement call, and the result does not depend on the
refinement environment). -/
theorem matchAnime_high_confidence_skips_refinement (env : Env) (rawInput : String)
    (cs : List Media)
    (hne : jsTrim rawInput ≠ "")
    (hcs : searchAnimeOnAniList env.catalog (applyAlias (jsTrim rawInput)) = .ok cs)
    (hnonempty : cs ≠ [])
    (hscore : (0.55 : ℚ) ≤ bestScoreOf (scoreCandidates (applyAlias (jsTrim rawInput)) cs)) :
    matchAnime env rawInput =
      .ok (some (formatMatch (jsTrim rawInput)
          (scoreCandidates (applyAlias (jsTrim rawInput)) cs),
        ⟨[applyAlias (jsTrim rawInput)], false⟩)) := by
  have hperf : performAniListMatch env.catalog (jsTrim rawInput) (applyAlias (jsTrim rawInput))
      = .ok (formatMatch (jsTrim rawInput) (scoreCandidates (applyAlias (jsTrim rawInput)) cs),
             scoreCandidates (applyAlias (jsTrim rawInput)) cs) := by
    unfold performAniListMatch
    rw [hcs]
  have hhi : ¬ hasLowConfidence (scoreCandidates (applyAlias (jsTrim rawInput)) cs) := by
    unfold hasLowConfidence LOW_CONFIDENCE_THRESHOLD
    push_neg
    exact ⟨fun hnil => hnonempty ((scoreCandidates_scores_nil_iff _ _).mp hnil),
      le_trans (by norm_num) hscore⟩
  simp only [matchAnime]
  rw [if_neg hne, hperf]
  dsimp only
  rw [if_pos hhi]

/-- C7 (witness): the gate theorem on input `"opm"`, whose alias resolves to
`"one punch man"`; the single candidate titles `"One Punch Man"`, scores `1`,
and the refinement client (configured, with a fetch that would reject) is
never reached. -/
theorem matchAnime_high_confidence_skips_refinement_witness :
    matchAnime
      ⟨fun _ => .response true true
          (some [⟨1, ⟨some "One Punch Man", none, none⟩, none, none⟩]),
        ⟨some "k", some "c", .netError⟩⟩ "opm" =
      .ok (some (formatMatch "opm"
          (scoreCandidates "one punch man"
            [⟨1, ⟨some "One Punch Man", none, none⟩, none, none⟩]),
        ⟨["one punch man"], false⟩)) := by
  have hsim : similarity "one punch man" "One Punch Man" = 1 := by
    simp only [similarity]
    rw [if_neg (by decide), if_neg (by decide)]
    rw [show levenshteinDistance (normalize "one punch man") (normalize "One Punch Man") = 0
      from by decide]
    norm_num
  have hscore : (0.55 : ℚ) ≤ bestScoreOf (scoreCandidates "one punch man"
      [⟨1, ⟨some "One Punch Man", none, none⟩, none, none⟩]) := by
    have hbest : bestScoreOf (scoreCandidates "one punch man"
        [⟨1, ⟨some "One Punch Man", none, none⟩, none, none⟩])
        = similarity "one punch man" "One Punch Man" := rfl
    rw [hbest, hsim]
    norm_num
  exact matchAnime_high_confidence_skips_refinement
    ⟨fun _ => .response true true
        (some [⟨1, ⟨some "One Punch Man", none, none⟩, none, none⟩]),
      ⟨some "k", some "c", .netError⟩⟩ "opm"
    [⟨1, ⟨some "One Punch Man", none, none⟩, none, none⟩]
    (by decide) rfl (by simp) hscore

/-- C10.  Whatever path `matchAnime` takes (initial result or refined
result), the `raw` field of the returned `MatchResult` is the trimmed
original input line, never the alias-resolved phrase and never the refined
phrase. -/
theorem matchAnime_raw_is_trimmed_input (env : Env) (rawInput : String)
    (r : MatchResult) (tr : Trace)
    (h : matchAnime env rawInput = .ok (some (r, tr))) :
    r.raw = jsTrim rawInput := by
  simp only [matchAnime] at h
  split at h
  · simp at h
  · split at h
    · simp at h
    · next initial hperf =>
      split at h
      · simp only [Except.ok.injEq, Option.some.injEq, Prod.mk.injEq] at h
        rw [← h.1]
        exact performAniListMatch_raw _ _ _ _ hperf
      · split at h
        · simp at h
        · simp only [Except.ok.injEq, Option.some.injEq, Prod.mk.injEq] at h
          rw [← h.1]
          exact performAniListMatch_raw _ _ _ _ hperf
        · split at h
          · simp only [Except.ok.injEq, Option.some.injEq, Prod.mk.injEq] at h
            rw [← h.1]
            exact performAniListMatch_raw _ _ _ _ hperf
          · split at h
            · simp at h
            · next refinedAttempt hperf2 =>
              split at h
              · simp only [Except.ok.injEq, Option.some.injEq, Prod.mk.injEq] at h
                rw [← h.1]
                exact performAniListMatch_raw _ _ _ _ hperf2
              · simp only [Except.ok.injEq, Option.some.injEq, Prod.mk.injEq] at h
                rw [← h.1]
                exact performAniListMatch_raw _ _ _ _ hperf

/-- C10 (witness): the raw-field theorem on the padded input `" aot "`, whose
result carries `raw = "aot"` (the trim of the input), not the alias-resolved
catalog phrase `"attack on titan"`. -/
theorem matchAnime_raw_is_trimmed_input_witness :
    (⟨"aot", MatchType.noMatch, none, []⟩ : MatchResult).raw = jsTrim " aot " :=
  matchAnime_raw_is_trimmed_input
    ⟨fun _ => .response false true (some []), ⟨none, none, .netError⟩⟩ " aot "
    ⟨"aot", MatchType.noMatch, none, []⟩ ⟨["attack on titan"], true⟩ rfl

/-- C9.  When `matchAnime` runs both an initial and a refined catalog
attempt, the returned result is the one built from the attempt with the
strictly higher best score (an attempt with no best counting as `0`); on a
tie the initial attempt's result is returned. -/
theorem matchAnime_two_attempts_pick_higher (env : Env) (rawInput : String)
    (r : MatchResult) (tr : Trace) (t2 : String)
    (ia ra : MatchResult × ScoredSet)
    (h : matchAnime env rawInput = .ok (some (r, tr)))
    (htr : tr.catalogCalls = [applyAlias (jsTrim rawInput), t2])
    (hia : performAniListMatch env.catalog (jsTrim rawInput)
      (applyAlias (jsTrim rawInput)) = .ok ia)
    (hra : performAniListMatch env.catalog (jsTrim rawInput) t2 = .ok ra) :
    r = if bestScoreOf ia.2 < bestScoreOf ra.2 then ra.1 else ia.1 := by
  simp only [matchAnime] at h
  split at h
  · simp at h
  · split at h
    · simp at h
    · next initial hperf =>
      rw [hperf] at hia
      have hinit : initial = ia := Except.ok.inj hia
      subst hinit
      split at h
      · simp only [Except.ok.injEq, Option.some.injEq, Prod.mk.injEq] at h
        rw [← h.2] at htr
        simp at htr
      · split at h
        · simp at h
        · simp only [Except.ok.injEq, Option.some.injEq, Prod.mk.injEq] at h
          rw [← h.2] at htr
          simp at htr
        · next refined hg =>
          split at h
          · simp only [Except.ok.injEq, Option.some.injEq, Prod.mk.injEq] at h
            rw [← h.2] at htr
            simp at htr
          · split at h
            · simp at h
            · next refinedAttempt hperf2 =>
              split at h
              · next hlt =>
                simp only [Except.ok.injEq, Option.some.injEq, Prod.mk.injEq] at h
                rw [← h.2] at htr
                simp only [List.cons.injEq, true_and, and_true] at htr
                rw [← htr] at hra
                rw [hperf2] at hra
                have hr : refinedAttempt = ra := Except.ok.inj hra
                subst hr
                rw [← h.1, if_pos hlt]
              · next hnlt =>
                simp only [Except.ok.injEq, Option.some.injEq, Prod.mk.injEq] at h
                rw [← h.2] at htr
                simp only [List.cons.injEq, true_and, and_true] at htr
                rw [← htr] at hra
                rw [hperf2] at hra
                have hr : refinedAttempt = ra := Except.ok.inj hra
                subst hr
                rw [← h.1, if_neg hnlt]

/-- C9 (witness): a run in which both attempts are made (the refined one via
a non-`ok` status, hence empty), the best scores tie at `0`, and the initial
attempt's result is returned. -/
theorem matchAnime_two_attempts_pick_higher_witness :
    (⟨"pp", MatchType.noMatch, none, []⟩ : MatchResult) =
      if bestScoreOf (scoreCandidates "pp" ([] : List Media)) <
          bestScoreOf (scoreCandidates "qq" ([] : List Media)) then
        formatMatch "pp" (scoreCandidates "qq" [])
      else formatMatch "pp" (scoreCandidates "pp" []) :=
  matchAnime_two_attempts_pick_higher
    ⟨fun s => if s = "qq" then .response false true none
        else .response true true (some []),
      ⟨some "k", some "c", .response true true (some [⟨some "qq", none⟩])⟩⟩
    "pp" ⟨"pp", MatchType.noMatch, none, []⟩ ⟨["pp", "qq"], true⟩ "qq"
    (formatMatch "pp" (scoreCandidates "pp" []), scoreCandidates "pp" [])
    (formatMatch "pp" (scoreCandidates "qq" []), scoreCandidates "qq" [])
    rfl rfl rfl rfl

/-- C8 (amended).  When refinement is attempted and yields no phrase, or
yields a phrase equal to the phrase already tried *ignoring letter case*
(`toLowerCase` comparison — not the §4.1 normalizer), the initial attempt's
result is returned unchanged and no second catalog query is issued (the trace
records exactly one catalog call). -/
theorem refinement_duplicate_check (env : Env) (rawInput : String)
    (ia : MatchResult × ScoredSet)
    (hne : jsTrim rawInput ≠ "")
    (hperf : performAniListMatch env.catalog (jsTrim rawInput)
      (applyAlias (jsTrim rawInput)) = .ok ia)
    (hlow : hasLowConfidence ia.2)
    (ref : Option String)
    (hg : searchGoogleForAnimePhrase env.google (applyAlias (jsTrim rawInput)) = .ok ref)
    (hdup : ref = none ∨ ∃ rp, ref = some rp ∧
      jsToLower rp = jsToLower (applyAlias (jsTrim rawInput))) :
    matchAnime env rawInput =
      .ok (some (ia.1, ⟨[applyAlias (jsTrim rawInput)], true⟩)) := by
  simp only [matchAnime]
  rw [if_neg hne, hperf]
  dsimp only
  rw [if_neg (not_not_intro hlow), hg]
  cases hdup with
  | inl h0 => rw [h0]
  | inr hex =>
    obtain ⟨rp, hrp, heq⟩ := hex
    rw [hrp]
    dsimp only
    rw [if_pos heq]

/-- C8 (witness): the duplicate check on input `"attack on titan"` with a
refinement phrase `"Attack On Titan"`, equal ignoring case; the initial
(empty) attempt's result comes back and only one catalog call is traced. -/
theorem refinement_duplicate_check_witness :
    matchAnime
      ⟨fun _ => .response true true (some []),
        ⟨some "k", some "c",
          .response true true (some [⟨some "Attack On Titan", some "x"⟩])⟩⟩
      "attack on titan" =
      .ok (some (formatMatch "attack on titan" (scoreCandidates "attack on titan" []),
        ⟨["attack on titan"], true⟩)) :=
  refinement_duplicate_check
    ⟨fun _ => .response true true (some []),
      ⟨some "k", some "c",
        .response true true (some [⟨some "Attack On Titan", some "x"⟩])⟩⟩
    "attack on titan"
    (formatMatch "attack on titan" (scoreCandidates "attack on titan" []),
      scoreCandidates "attack on titan" [])
    (by decide) rfl (Or.inl rfl) (some "Attack On Titan") rfl
    (Or.inr ⟨"Attack On Titan", rfl, by decide⟩)

/-- C8 (counterexample).  The claim says a refinement phrase that *normalizes
identically* (§4.1) to the tried phrase triggers no second query.  The phrase
`"Attack on Titan!"` normalizes identically to `"attack on titan"` but
differs under `toLowerCase` (the comparison the code actually makes), so a
second catalog query *is* issued and its (auto) result — not the initial
no-match result — is returned: the trace records two catalog calls. -/
theorem C8_counterexample :
    normalize "Attack on Titan!" = normalize "attack on titan" ∧
    Except.map (Option.map (fun p => (p.1.type, p.2)))
      (matchAnime
        ⟨fun s => if s = "Attack on Titan!" then
            .response true true
              (some [⟨7, ⟨some "Attack on Titan", none, none⟩, none, none⟩])
          else .response true true (some []),
          ⟨some "k", some "c",
            .response true true
              (some [⟨some "Attack on Titan!", some "anilist.co/a"⟩])⟩⟩
        "attack on titan") =
      .ok (some (MatchType.auto,
        ⟨["attack on titan", "Attack on Titan!"], true⟩)) := by
  constructor
  · decide
  · have hsim : similarity "Attack on Titan!" "Attack on Titan" = 1 := by
      simp only [similarity]
      rw [if_neg (by decide), if_neg (by decide)]
      rw [show levenshteinDistance (normalize "Attack on Titan!")
        (normalize "Attack on Titan") = 0 from by decide]
      norm_num
    have hbest : bestScoreOf (scoreCandidates "Attack on Titan!"
        [⟨7, ⟨some "Attack on Titan", none, none⟩, none, none⟩])
        = similarity "Attack on Titan!" "Attack on Titan" := rfl
    have hlt : bestScoreOf (scoreCandidates "attack on titan" ([] : List Media)) <
        bestScoreOf (scoreCandidates "Attack on Titan!"
          [⟨7, ⟨some "Attack on Titan", none, none⟩, none, none⟩]) := by
      rw [hbest, hsim,
        show bestScoreOf (scoreCandidates "attack on titan" ([] : List Media)) = 0 from rfl]
      norm_num
    have htype : (formatMatch "attack on titan"
        (scoreCandidates "Attack on Titan!"
          [⟨7, ⟨some "Attack on Titan", none, none⟩, none, none⟩])).type
        = MatchType.auto := by
      unfold formatMatch
      rw [if_neg (by
        rw [show (scoreCandidates "Attack on Titan!"
            [⟨7, ⟨some "Attack on Titan", none, none⟩, none, none⟩]).scores
          = [⟨⟨7, ⟨some "Attack on Titan", none, none⟩, none, none⟩,
              similarity "Attack on Titan!" "Attack on Titan"⟩] from rfl]
        exact List.cons_ne_nil _ _)]
      rw [if_pos ?both]
      case both =>
        constructor
        · rw [show bestScoreOf (scoreCandidates "Attack on Titan!"
              [⟨7, ⟨some "Attack on Titan", none, none⟩, none, none⟩])
            = similarity "Attack on Titan!" "Attack on Titan" from rfl, hsim]
          unfold AUTO_THRESHOLD
          norm_num
        · rw [show (scoreCandidates "Attack on Titan!"
              [⟨7, ⟨some "Attack on Titan", none, none⟩, none, none⟩]).margin
            = JsNum.fin 1 from rfl]
          show (0.2 : ℚ) ≤ 1
          norm_num
    have hrun : matchAnime
        ⟨fun s => if s = "Attack on Titan!" then
            .response true true
              (some [⟨7, ⟨some "Attack on Titan", none, none⟩, none, none⟩])
          else .response true true (some []),
          ⟨some "k", some "c",
            .response true true
              (some [⟨some "Attack on Titan!", some "anilist.co/a"⟩])⟩⟩
        "attack on titan" =
        .ok (some (formatMatch "attack on titan"
            (scoreCandidates "Attack on Titan!"
              [⟨7, ⟨some "Attack on Titan", none, none⟩, none, none⟩]),
          (⟨["attack on titan", "Attack on Titan!"], true⟩ : Trace))) := by
      have hstep : matchAnime
          ⟨fun s => if s = "Attack on Titan!" then
              .response true true
                (some [⟨7, ⟨some "Attack on Titan", none, none⟩, none, none⟩])
            else .response true true (some []),
            ⟨some "k", some "c",
              .response true true
                (some [⟨some "Attack on Titan!", some "anilist.co/a"⟩])⟩⟩
          "attack on titan" =
          if bestScoreOf (scoreCandidates "attack on titan" ([] : List Media)) <
              bestScoreOf (scoreCandidates "Attack on Titan!"
                [⟨7, ⟨some "Attack on Titan", none, none⟩, none, none⟩]) then
            .ok (some (formatMatch "attack on titan"
                (scoreCandidates "Attack on Titan!"
                  [⟨7, ⟨some "Attack on Titan", none, none⟩, none, none⟩]),
              (⟨["attack on titan", "Attack on Titan!"], true⟩ : Trace)))
          else
            .ok (some (formatMatch "attack on titan"
                (scoreCandidates "attack on titan" []),
              (⟨["attack on titan", "Attack on Titan!"], true⟩ : Trace))) := rfl
      rw [hstep, if_pos hlt]
    rw [hrun]
    dsimp only [Except.map, Option.map]
    rw [htype]

/-- C6.  The refinement client returns `none` rather than raising when it is
unconfigured, when its `fetch` rejects, when the response status is not `ok`,
when the body fails JSON parsing, and when no usable title can be extracted
from the items; it never throws at all, and consequently no refinement
failure can make `matchAnime` fail (whenever the catalog calls succeed,
`matchAnime` succeeds, whatever the refinement environment does). -/
theorem refinement_failures_absorbed (g : GoogleEnv) (phrase : String) :
    (∃ v, searchGoogleForAnimePhrase g phrase = .ok v) ∧
    (¬googleConfigured g → searchGoogleForAnimePhrase g phrase = .ok none) ∧
    (g.fetch = .netError → searchGoogleForAnimePhrase g phrase = .ok none) ∧
    (∀ jv pl, g.fetch = .response false jv pl →
      searchGoogleForAnimePhrase g phrase = .ok none) ∧
    (∀ pl, g.fetch = .response true false pl →
      searchGoogleForAnimePhrase g phrase = .ok none) ∧
    (∀ pl, g.fetch = .response true true pl →
      firstUsableTitle (sortDescBy itemPriority (pl.getD [])) = none →
      searchGoogleForAnimePhrase g phrase = .ok none) ∧
    (∀ (env : Env) (rawInput : String),
      (∀ s, ∃ cs, searchAnimeOnAniList env.catalog s = .ok cs) →
      ∃ v, matchAnime env rawInput = .ok v) := by
  refine ⟨searchGoogleForAnimePhrase_never_throws g phrase, ?_, ?_, ?_, ?_, ?_, ?_⟩
  · intro h
    unfold searchGoogleForAnimePhrase
    rw [if_pos h]
  · intro h
    have htry : searchGoogleTry g = .error .transport := by
      unfold searchGoogleTry
      rw [h]
    unfold searchGoogleForAnimePhrase
    split
    · rfl
    · rw [htry]
  · intro jv pl h
    have htry : searchGoogleTry g = .ok none := by
      unfold searchGoogleTry
      rw [h]
      rfl
    unfold searchGoogleForAnimePhrase
    split
    · rfl
    · rw [htry]
  · intro pl h
    have htry : searchGoogleTry g = .error .parse := by
      unfold searchGoogleTry
      rw [h]
      rfl
    unfold searchGoogleForAnimePhrase
    split
    · rfl
    · rw [htry]
  · intro pl h hloop
    have htry : searchGoogleTry g = .ok none := by
      unfold searchGoogleTry
      rw [h]
      show (if pl.getD [] = [] then Except.ok none
        else Except.ok (firstUsableTitle (sortDescBy itemPriority (pl.getD []))))
        = Except.ok none
      rw [hloop]
      split <;> rfl
    unfold searchGoogleForAnimePhrase
    split
    · rfl
    · rw [htry]
  · intro env rawInput hcat
    simp only [matchAnime]
    split
    · exact ⟨none, rfl⟩
    · split
      · next e heq =>
        obtain ⟨cs, hc⟩ := hcat (applyAlias (jsTrim rawInput))
        unfold performAniListMatch at heq
        rw [hc] at heq
        simp at heq
      · next initial heq =>
        split
        · exact ⟨_, rfl⟩
        · split
          · next e heqg =>
            obtain ⟨v, hv⟩ := searchGoogleForAnimePhrase_never_throws env.google
              (applyAlias (jsTrim rawInput))
            rw [hv] at heqg
            simp at heqg
          · exact ⟨_, rfl⟩
          · next refined heqg =>
            split
            · exact ⟨_, rfl⟩
            · split
              · next e heq2 =>
                obtain ⟨cs, hc⟩ := hcat refined
                unfold performAniListMatch at heq2
                rw [hc] at heq2
                simp at heq2
              · next ra heq2 =>
                split
                · exact ⟨_, rfl⟩
                · exact ⟨_, rfl⟩

/-- C6 (witness): an unconfigured refinement environment yields `.ok none`,
and `matchAnime` still succeeds against a catalog whose calls succeed. -/
theorem refinement_failures_absorbed_witness :
    searchGoogleForAnimePhrase ⟨none, none, .netError⟩ "x" = .ok none ∧
    ∃ v, matchAnime ⟨fun _ => .response false true none,
      ⟨none, none, .netError⟩⟩ "x" = .ok v :=
  ⟨(refinement_failures_absorbed ⟨none, none, .netError⟩ "x").2.1 (by decide),
   (refinement_failures_absorbed ⟨none, none, .netError⟩ "x").2.2.2.2.2.2
     ⟨fun _ => .response false true none, ⟨none, none, .netError⟩⟩ "x"
     (fun _ => ⟨[], rfl⟩)⟩

theorem bestScoreOf_nil (t : String) : bestScoreOf (scoreCandidates t []) = 0 := rfl

/-- A successful attempt formats to `no-match` exactly when its catalog query
returned zero candidates. -/
theorem noMatch_initial_aux (catalog : String → FetchOutcome (List Media))
    (trimmed aliased : String) (att : MatchResult × ScoredSet)
    (hperf : performAniListMatch catalog trimmed aliased = .ok att) :
    att.1.type = .noMatch ↔ searchAnimeOnAniList catalog aliased = .ok [] := by
  obtain ⟨cs, hcs, hpair⟩ := performAniListMatch_ok _ _ _ _ hperf
  rw [hpair]
  rw [show ((formatMatch trimmed (scoreCandidates aliased cs), scoreCandidates aliased cs) :
      MatchResult × ScoredSet).1 = formatMatch trimmed (scoreCandidates aliased cs) from rfl]
  rw [formatMatch_noMatch_iff, scoreCandidates_scores_nil_iff, hcs]
  simp

/-- C4 (amended).  For a successful non-blank run, the result is `no-match`
iff either (a) the initial catalog query returned zero candidates and, when a
refined catalog attempt was also made, the refined attempt's best score was
not strictly above `0`, or (b) a refined attempt was made whose query
returned zero candidates while the initial attempt's best score was strictly
below `0` — i.e. `-Infinity`, from candidates none of which has a usable
title — so the refined no-match result wins the strict comparison.  In both
cases an attempt whose query returned candidates can be on the losing side,
so `no-match` does not mean that every attempt returned zero candidates. -/
theorem noMatch_characterization (env : Env) (rawInput : String)
    (r : MatchResult) (tr : Trace)
    (h : matchAnime env rawInput = .ok (some (r, tr))) :
    r.type = .noMatch ↔
      ((searchAnimeOnAniList env.catalog (applyAlias (jsTrim rawInput)) = .ok [] ∧
        (tr.catalogCalls = [applyAlias (jsTrim rawInput)] ∨
         ∃ t2 cs2, tr.catalogCalls = [applyAlias (jsTrim rawInput), t2] ∧
           searchAnimeOnAniList env.catalog t2 = .ok cs2 ∧
           bestScoreOf (scoreCandidates t2 cs2) ≤ 0)) ∨
       (∃ t2 cs1, tr.catalogCalls = [applyAlias (jsTrim rawInput), t2] ∧
         searchAnimeOnAniList env.catalog t2 = .ok [] ∧
         searchAnimeOnAniList env.catalog (applyAlias (jsTrim rawInput)) = .ok cs1 ∧
         bestScoreOf (scoreCandidates (applyAlias (jsTrim rawInput)) cs1) < 0)) := by
  simp only [matchAnime] at h
  split at h
  · simp at h
  · split at h
    · simp at h
    · next initial hperf =>
      obtain ⟨cs1, hcs1, hsc1⟩ := performAniListMatch_scored _ _ _ _ hperf
      split at h
      · simp only [Except.ok.injEq, Option.some.injEq, Prod.mk.injEq] at h
        rw [← h.1, ← h.2]
        rw [noMatch_initial_aux _ _ _ _ hperf]
        constructor
        · intro hfirst
          exact Or.inl ⟨hfirst, Or.inl rfl⟩
        · rintro (⟨hfirst, _⟩ | ⟨t2, cs1x, hlist, _, _, _⟩)
          · exact hfirst
          · simp at hlist
      · split at h
        · simp at h
        · simp only [Except.ok.injEq, Option.some.injEq, Prod.mk.injEq] at h
          rw [← h.1, ← h.2]
          rw [noMatch_initial_aux _ _ _ _ hperf]
          constructor
          · intro hfirst
            exact Or.inl ⟨hfirst, Or.inl rfl⟩
          · rintro (⟨hfirst, _⟩ | ⟨t2, cs1x, hlist, _, _, _⟩)
            · exact hfirst
            · simp at hlist
        · next refined heqg =>
          split at h
          · simp only [Except.ok.injEq, Option.some.injEq, Prod.mk.injEq] at h
            rw [← h.1, ← h.2]
            rw [noMatch_initial_aux _ _ _ _ hperf]
            constructor
            · intro hfirst
              exact Or.inl ⟨hfirst, Or.inl rfl⟩
            · rintro (⟨hfirst, _⟩ | ⟨t2, cs1x, hlist, _, _, _⟩)
              · exact hfirst
              · simp at hlist
          · split at h
            · simp at h
            · next refinedAttempt hperf2 =>
              obtain ⟨cs2, hcs2, hsc2⟩ := performAniListMatch_scored _ _ _ _ hperf2
              split at h
              · next hlt =>
                simp only [Except.ok.injEq, Option.some.injEq, Prod.mk.injEq] at h
                rw [← h.1, ← h.2]
                rw [noMatch_initial_aux _ _ _ _ hperf2]
                constructor
                · intro hnil2
                  refine Or.inr ⟨refined, cs1, rfl, hnil2, hcs1, ?_⟩
                  have hc2 : cs2 = [] := by
                    rw [hcs2] at hnil2
                    simpa using hnil2
                  subst hc2
                  rw [hsc1, hsc2, bestScoreOf_nil] at hlt
                  exact hlt
                · rintro (⟨hfirst, hrest⟩ | ⟨t2, cs1x, hlist, hok2, hok1, hltx⟩)
                  · exfalso
                    rw [hcs1] at hfirst
                    have hc1 : cs1 = [] := by simpa using hfirst
                    subst hc1
                    rw [hsc1, hsc2, bestScoreOf_nil] at hlt
                    cases hrest with
                    | inl hl => simp at hl
                    | inr hex =>
                      obtain ⟨t2, cs2x, hlist2, hcs2x, hle⟩ := hex
                      simp only [List.cons.injEq, true_and, and_true] at hlist2
                      subst hlist2
                      rw [hcs2] at hcs2x
                      have hx : cs2 = cs2x := Except.ok.inj hcs2x
                      subst hx
                      exact absurd (lt_of_lt_of_le hlt hle) (lt_irrefl 0)
                  · simp only [List.cons.injEq, true_and, and_true] at hlist
                    subst hlist
                    exact hok2
              · next hnlt =>
                simp only [Except.ok.injEq, Option.some.injEq, Prod.mk.injEq] at h
                rw [← h.1, ← h.2]
                rw [noMatch_initial_aux _ _ _ _ hperf]
                constructor
                · intro hfirst
                  refine Or.inl ⟨hfirst, Or.inr ⟨refined, cs2, rfl, hcs2, ?_⟩⟩
                  rw [hcs1] at hfirst
                  have hc1 : cs1 = [] := by simpa using hfirst
                  subst hc1
                  rw [hsc1, hsc2, bestScoreOf_nil] at hnlt
                  exact not_lt.mp hnlt
                · rintro (⟨hfirst, _⟩ | ⟨t2, cs1x, hlist, hok2, hok1, hltx⟩)
                  · exact hfirst
                  · exfalso
                    simp only [List.cons.injEq, true_and, and_true] at hlist
                    subst hlist
                    rw [hcs2] at hok2
                    have hc2 : cs2 = [] := by simpa using hok2
                    subst hc2
                    rw [hcs1] at hok1
                    have hx : cs1 = cs1x := Except.ok.inj hok1
                    subst hx
                    rw [hsc1, hsc2, bestScoreOf_nil] at hnlt
                    exact hnlt hltx

/-- C4 (counterexample).  The claim says `no-match` holds iff *every* attempt
made returned zero candidates.  Here the initial attempt returns zero
candidates, and the refined attempt (for the phrase `"Zz"`) returns one
candidate — whose best score is `0`, so it does not beat the initial attempt
and the `no-match` result is returned even though the refined attempt's query
had a candidate. -/
theorem C4_counterexample :
    matchAnime
      ⟨fun s => if s = "Zz" then
          .response true true (some [⟨2, ⟨some "Qq", none, none⟩, none, none⟩])
        else .response true true (some []),
        ⟨some "k", some "c",
          .response true true (some [⟨some "Zz", some "anilist.co/a"⟩])⟩⟩ "x"
      = .ok (some (⟨"x", .noMatch, none, []⟩, ⟨["x", "Zz"], true⟩)) ∧
    searchAnimeOnAniList
      (fun s => if s = "Zz" then
          .response true true (some [⟨2, ⟨some "Qq", none, none⟩, none, none⟩])
        else .response true true (some [])) "Zz"
      = .ok [⟨2, ⟨some "Qq", none, none⟩, none, none⟩] ∧
    ([⟨2, ⟨some "Qq", none, none⟩, none, none⟩] : List Media) ≠ [] := by
  refine ⟨?_, rfl, by simp⟩
  have hsim0 : similarity "Zz" "Qq" = 0 := by
    simp only [similarity]
    rw [if_neg (by decide), if_neg (by decide)]
    rw [show levenshteinDistance (normalize "Zz") (normalize "Qq") = 2 from by decide]
    rw [show max (normalize "Zz").length (normalize "Qq").length = 2 from by decide]
    norm_num
  have hnlt : ¬ (bestScoreOf (scoreCandidates "x" ([] : List Media)) <
      bestScoreOf (scoreCandidates "Zz" [⟨2, ⟨some "Qq", none, none⟩, none, none⟩])) := by
    rw [show bestScoreOf (scoreCandidates "Zz" [⟨2, ⟨some "Qq", none, none⟩, none, none⟩])
      = similarity "Zz" "Qq" from rfl, hsim0, bestScoreOf_nil]
    exact lt_irrefl 0
  have hstep : matchAnime
      ⟨fun s => if s = "Zz" then
          .response true true (some [⟨2, ⟨some "Qq", none, none⟩, none, none⟩])
        else .response true true (some []),
        ⟨some "k", some "c",
          .response true true (some [⟨some "Zz", some "anilist.co/a"⟩])⟩⟩ "x"
      = if bestScoreOf (scoreCandidates "x" ([] : List Media)) <
            bestScoreOf (scoreCandidates "Zz"
              [⟨2, ⟨some "Qq", none, none⟩, none, none⟩]) then
          .ok (some (formatMatch "x" (scoreCandidates "Zz"
              [⟨2, ⟨some "Qq", none, none⟩, none, none⟩]),
            (⟨["x", "Zz"], true⟩ : Trace)))
        else .ok (some (⟨"x", .noMatch, none, []⟩, ⟨["x", "Zz"], true⟩)) := rfl
  rw [hstep, if_neg hnlt]

/-- C4 (witness): the characterization on the two-attempt corner it fixes —
the initial query returns one candidate with no usable title (best score
`-Infinity`), the refined query returns zero candidates, and the refined
`no-match` result wins the strict comparison, so the run is `no-match` via
the second disjunct even though the initial query had a candidate. -/
theorem noMatch_characterization_witness :
    (⟨"x", MatchType.noMatch, none, []⟩ : MatchResult).type = .noMatch ↔
      ((searchAnimeOnAniList (fun s => if s = "Zz" then .response true true (some [])
          else .response true true (some [⟨9, ⟨none, none, none⟩, none, none⟩])) "x"
            = .ok [] ∧
        ((["x", "Zz"] : List String) = ["x"] ∨
         ∃ t2 cs2, (["x", "Zz"] : List String) = ["x", t2] ∧
           searchAnimeOnAniList (fun s => if s = "Zz" then .response true true (some [])
             else .response true true (some [⟨9, ⟨none, none, none⟩, none, none⟩])) t2
               = .ok cs2 ∧
           bestScoreOf (scoreCandidates t2 cs2) ≤ 0)) ∨
       (∃ t2 cs1, (["x", "Zz"] : List String) = ["x", t2] ∧
         searchAnimeOnAniList (fun s => if s = "Zz" then .response true true (some [])
           else .response true true (some [⟨9, ⟨none, none, none⟩, none, none⟩])) t2
             = .ok [] ∧
         searchAnimeOnAniList (fun s => if s = "Zz" then .response true true (some [])
           else .response true true (some [⟨9, ⟨none, none, none⟩, none, none⟩])) "x"
             = .ok cs1 ∧
         bestScoreOf (scoreCandidates "x" cs1) < 0)) :=
  noMatch_characterization
    ⟨fun s => if s = "Zz" then .response true true (some [])
        else .response true true (some [⟨9, ⟨none, none, none⟩, none, none⟩]),
      ⟨some "k", some "c", .response true true (some [⟨some "Zz", none⟩])⟩⟩
    "x" ⟨"x", MatchType.noMatch, none, []⟩ ⟨["x", "Zz"], true⟩ rfl

end AniList
